import Mathlib

/-!
Verification of the corppa poetry-detection core data model
(`src/corppa/poetry_detection/core.py`) against its specification.

Modelling conventions:
* Python strings that are sliced or scanned character by character
  (page texts, excerpt texts, delimited cell values) are modelled as
  `List Char`; identifier-like strings (page ids, method names, excerpt
  ids) are modelled as `String`.
* Python `set[str]` is modelled as `Finset String`.
* A Python `raise ValueError(...)` is modelled by returning
  `Except.error` with a constructor of `PyErr` identifying the raise
  site and carrying the values interpolated into the message.
* `dataclass` construction plus `__post_init__` validation is modelled
  by smart constructors (`Span.make`, `Excerpt.make`,
  `LabeledExcerpt.make`); `dataclasses.replace` re-runs
  `__post_init__`, so the methods `strip_whitespace` and
  `correct_page_excerpt` re-invoke the smart constructor.
-/

namespace Corppa

/-- Characters treated as whitespace by Python's `str.strip` /
`str.lstrip` / `str.rstrip` (the ASCII whitespace class; the corpus
texts relevant to the claims only use these). -/
def isPySpace (c : Char) : Bool :=
  c == ' ' || c == '\t' || c == '\n' || c == '\r' || c == '\x0b' || c == '\x0c'

/-- Error values for the `ValueError` / `TypeError` / `IndexError`
raise sites of `core.py`, each carrying the data interpolated into the
corresponding Python error message. The spec's error taxonomy names
map as follows: `InvalidRangeError` to `spanInvalidRange` /
`invalidRange` / `invalidRefRange`, `EmptyMethodSetError` to
`emptyMethodSet` / `emptyIdMethodSet`, `InvalidDetectionMethodError`
to `unsupportedMethods`, `InvalidReferenceSpanError` to
`invalidRefSpan`. -/
inductive PyErr where
  /-- `Span.__post_init__`: "Start index must be less than end index" -/
  | spanInvalidRange : PyErr
  /-- `Excerpt.__post_init__`: "PPA span's start index ... must be less than its end index ..." -/
  | invalidRange (start stop : Int) : PyErr
  /-- `Excerpt.__post_init__`: "Must specify at least one detection method" -/
  | emptyMethodSet : PyErr
  /-- `Excerpt.__post_init__`: "Unsupported detection method(s): ..."; carries the offending values named in the message -/
  | unsupportedMethods (methods : Finset String) : PyErr
  /-- `LabeledExcerpt.__post_init__`: "Must specify at least one identification method" -/
  | emptyIdMethodSet : PyErr
  /-- `LabeledExcerpt.__post_init__`: "Reference span's start and end index must both be set" -/
  | invalidRefSpan : PyErr
  /-- `LabeledExcerpt.__post_init__`: "Reference span's start index ... must be less than its end index ..." -/
  | invalidRefRange (start stop : Int) : PyErr
  /-- `TypeError` from `cls(**input_args)` when a required field was deleted in `from_dict` -/
  | missingField (fieldName : String) : PyErr
  /-- `ValueError` from `int(...)` on a non-numeric string in `from_dict` -/
  | badIntLiteral (s : String) : PyErr
  /-- `IndexError` from indexing an empty aligned-block array in `correct_page_excerpt` -/
  | indexError : PyErr
  deriving DecidableEq

instance {ε α : Type} [DecidableEq ε] [DecidableEq α] : DecidableEq (Except ε α) := fun
  | .error a, .error b =>
    if h : a = b then .isTrue (by rw [h])
    else .isFalse (fun hc => h (Except.error.inj hc))
  | .error a, .ok b => .isFalse (fun hc => Except.noConfusion hc)
  | .ok a, .error b => .isFalse (fun hc => Except.noConfusion hc)
  | .ok a, .ok b =>
    if h : a = b then .isTrue (by rw [h])
    else .isFalse (fun hc => h (Except.ok.inj hc))

/-! ## Span -/

/-- `Span`: a half-open interval with a label. The Python field `end`
is called `stop` here (`end` is a Lean keyword). -/
structure Span where
  start : Int
  stop : Int
  label : String
  deriving DecidableEq

/-- The `__post_init__` invariant of `Span`: construction succeeds
exactly when `end > start`. -/
def Span.Valid (s : Span) : Prop := s.start < s.stop

instance (s : Span) : Decidable s.Valid := by unfold Span.Valid; infer_instance

/-- `Span(start, end, label)` including `Span.__post_init__`. -/
def Span.make (start stop : Int) (label : String) : Except PyErr Span :=
  if stop ≤ start then .error .spanInvalidRange
  else .ok { start := start, stop := stop, label := label }

/-- `Span.__len__`. -/
def Span.length (s : Span) : Int := s.stop - s.start

/-- `Span.has_overlap`. -/
def Span.has_overlap (s other : Span) (ignore_label : Bool) : Bool :=
  if ignore_label || s.label == other.label then
    decide (s.start < other.stop) && decide (other.start < s.stop)
  else false

/-- `Span.is_exact_match`. -/
def Span.is_exact_match (s other : Span) (ignore_label : Bool) : Bool :=
  if s.start == other.start && s.stop == other.stop then
    ignore_label || s.label == other.label
  else false

/-- `Span.overlap_length`. -/
def Span.overlap_length (s other : Span) (ignore_label : Bool) : Int :=
  if s.has_overlap other ignore_label then
    min s.stop other.stop - max s.start other.start
  else 0

/-- `Span.overlap_factor`; the Python float division is modelled as
exact division in `ℚ`. -/
def Span.overlap_factor (s other : Span) (ignore_label : Bool) : ℚ :=
  (s.overlap_length other ignore_label : ℚ) / ((max s.length other.length : Int) : ℚ)

/-! ## Detection methods and excerpt ids -/

/-- The `DETECTION_METHODS` table of `core.py`: supported detection
methods and their id prefixes. -/
def DETECTION_METHODS : List (String × String) :=
  [("adjudication", "a"), ("manual", "m"), ("passim", "p"), ("xml", "x")]

/-- The key set of `DETECTION_METHODS` (`DETECTION_METHODS.keys()`). -/
def detectionVocab : Finset String := {"adjudication", "manual", "passim", "xml"}

/-- Lexicographic comparison of character lists by code point, the
order Python's `sorted` uses on strings. -/
def lexLeb : List Char → List Char → Bool
  | [], _ => true
  | _ :: _, [] => false
  | a :: as, b :: bs =>
    if a.toNat = b.toNat then lexLeb as bs
    else decide (a.toNat < b.toNat)

/-- Python's string order. -/
def strLe (a b : String) : Prop := lexLeb a.data b.data = true

instance : DecidableRel strLe := fun a b => by unfold strLe; infer_instance

theorem char_toNat_inj {a b : Char} (h : a.toNat = b.toNat) : a = b := by
  have hc := congrArg Char.ofNat h
  rwa [Char.ofNat_toNat, Char.ofNat_toNat] at hc

theorem lexLeb_total : ∀ x y : List Char, lexLeb x y = true ∨ lexLeb y x = true
  | [], _ => Or.inl rfl
  | _ :: _, [] => Or.inr rfl
  | a :: as, b :: bs => by
    rcases Nat.lt_trichotomy a.toNat b.toNat with h | h | h
    · exact Or.inl (by simp [lexLeb, h]; omega)
    · rcases lexLeb_total as bs with ih | ih
      · exact Or.inl (by simp [lexLeb, h, ih])
      · exact Or.inr (by simp [lexLeb, h.symm, ih])
    · exact Or.inr (by simp [lexLeb, h]; omega)

theorem lexLeb_trans : ∀ x y z : List Char,
    lexLeb x y = true → lexLeb y z = true → lexLeb x z = true
  | [], _, _, _, _ => rfl
  | _ :: _, [], _, hxy, _ => by simp [lexLeb] at hxy
  | _ :: _, _ :: _, [], _, hyz => by simp [lexLeb] at hyz
  | a :: as, b :: bs, c :: cs, hxy, hyz => by
    simp only [lexLeb] at hxy hyz ⊢
    split_ifs at hxy hyz ⊢ with h1 h2 h3 h4 h5 h6 h7 <;>
      first
      | exact lexLeb_trans as bs cs hxy hyz
      | omega
      | (simp only [decide_eq_true_eq] at *; omega)

theorem lexLeb_antisymm : ∀ x y : List Char,
    lexLeb x y = true → lexLeb y x = true → x = y
  | [], [], _, _ => rfl
  | [], _ :: _, _, hyx => by simp [lexLeb] at hyx
  | _ :: _, [], hxy, _ => by simp [lexLeb] at hxy
  | a :: as, b :: bs, hxy, hyx => by
    simp only [lexLeb] at hxy hyx
    by_cases h1 : a.toNat = b.toNat
    · rw [if_pos h1] at hxy
      rw [if_pos h1.symm] at hyx
      rw [char_toNat_inj h1, lexLeb_antisymm as bs hxy hyx]
    · rw [if_neg h1] at hxy
      rw [if_neg (fun hc => h1 hc.symm)] at hyx
      simp only [decide_eq_true_eq] at hxy hyx
      omega

instance : IsTotal String strLe := ⟨fun a b => lexLeb_total a.data b.data⟩

instance : IsTrans String strLe := ⟨fun a b c => lexLeb_trans a.data b.data c.data⟩

instance : IsAntisymm String strLe :=
  ⟨fun a b hab hba => by
    have hd := lexLeb_antisymm a.data b.data hab hba
    cases a
    cases b
    exact congrArg String.mk hd⟩

/-- Sorting a multiset of strings into a list (insertion sort under
Python's string order; the result is independent of the representative
enumeration). -/
def multisetSort (m : Multiset String) : List String :=
  Quot.liftOn m (fun l => List.insertionSort strLe l)
    (fun l₁ l₂ h => List.eq_of_perm_of_sorted
      ((List.perm_insertionSort _ l₁).trans (h.trans (List.perm_insertionSort _ l₂).symm))
      (List.sorted_insertionSort _ l₁) (List.sorted_insertionSort _ l₂))

/-- Canonical sorted enumeration of a method set (used where Python
sorts, and as the canonical choice where Python enumerates a set in
arbitrary order). -/
def sortedMethods (s : Finset String) : List String := multisetSort s.val

/-- The id prefix chosen in `Excerpt.__post_init__`: the table entry
for a single method, `"c"` (combination) otherwise. -/
def methodPrefix (methods : Finset String) : String :=
  match sortedMethods methods with
  | [m] => (DETECTION_METHODS.lookup m).getD "?"
  | _ => "c"

/-- The derived excerpt id set in `Excerpt.__post_init__`. -/
def computeExcerptId (methods : Finset String) (start stop : Int) : String :=
  methodPrefix methods ++ "@" ++ toString start ++ ":" ++ toString stop

/-! ## Excerpt -/

/-- `Excerpt` (frozen dataclass). `excerpt_id` is the derived field
injected by `__post_init__`. -/
structure Excerpt where
  page_id : String
  ppa_span_start : Int
  ppa_span_end : Int
  ppa_span_text : List Char
  detection_methods : Finset String
  notes : Option String
  excerpt_id : String
  deriving DecidableEq

/-- The invariants established by `Excerpt.__post_init__`: valid PPA
span, non-empty detection method set drawn from the fixed vocabulary,
and the derived id. -/
def Excerpt.Valid (e : Excerpt) : Prop :=
  e.ppa_span_start < e.ppa_span_end ∧
  e.detection_methods ≠ ∅ ∧
  e.detection_methods ⊆ detectionVocab ∧
  e.excerpt_id = computeExcerptId e.detection_methods e.ppa_span_start e.ppa_span_end

instance (e : Excerpt) : Decidable e.Valid := by unfold Excerpt.Valid; infer_instance

/-- `Excerpt(...)` construction including `Excerpt.__post_init__`:
span check, emptiness check, vocabulary check (in source order),
then id derivation. -/
def Excerpt.make (page_id : String) (start stop : Int) (text : List Char)
    (methods : Finset String) (notes : Option String) : Except PyErr Excerpt :=
  if stop ≤ start then .error (.invalidRange start stop)
  else if methods = ∅ then .error .emptyMethodSet
  else if methods \ detectionVocab ≠ ∅ then .error (.unsupportedMethods (methods \ detectionVocab))
  else .ok { page_id := page_id, ppa_span_start := start, ppa_span_end := stop,
             ppa_span_text := text, detection_methods := methods, notes := notes,
             excerpt_id := computeExcerptId methods start stop }

/-- Count of leading whitespace: `len(text) - len(text.lstrip())`. -/
def lstripCount (text : List Char) : Nat := (text.takeWhile isPySpace).length

/-- Count of trailing whitespace: `len(text) - len(text.rstrip())`. -/
def rstripCount (text : List Char) : Nat := (text.reverse.takeWhile isPySpace).length

/-- Python `text.strip()`. -/
def stripChars (text : List Char) : List Char :=
  ((text.dropWhile isPySpace).reverse.dropWhile isPySpace).reverse

/-- `Excerpt.strip_whitespace`: `dataclasses.replace` re-runs
`__post_init__`, hence the smart constructor. -/
def Excerpt.strip_whitespace (e : Excerpt) : Except PyErr Excerpt :=
  Excerpt.make e.page_id
    (e.ppa_span_start + (lstripCount e.ppa_span_text : Int))
    (e.ppa_span_end - (rstripCount e.ppa_span_text : Int))
    (stripChars e.ppa_span_text) e.detection_methods e.notes

/-! ## LabeledExcerpt -/

/-- `LabeledExcerpt` (frozen dataclass extending `Excerpt`). -/
structure LabeledExcerpt where
  page_id : String
  ppa_span_start : Int
  ppa_span_end : Int
  ppa_span_text : List Char
  detection_methods : Finset String
  notes : Option String
  excerpt_id : String
  poem_id : String
  ref_corpus : String
  ref_span_start : Option Int
  ref_span_end : Option Int
  ref_span_text : Option (List Char)
  identification_methods : Finset String
  deriving DecidableEq

/-- The reference range invariant: if both endpoints are set, the end
strictly exceeds the start. -/
def refRangeOk (a b : Option Int) : Bool :=
  match a, b with
  | some rs, some re => decide (rs < re)
  | _, _ => true

/-- The invariants established by `LabeledExcerpt.__post_init__`
(which first runs `Excerpt.__post_init__`). Note that
`ref_span_text` is NOT constrained by the source, and
`identification_methods` is only required to be non-empty (no
vocabulary check). -/
def LabeledExcerpt.Valid (e : LabeledExcerpt) : Prop :=
  e.ppa_span_start < e.ppa_span_end ∧
  e.detection_methods ≠ ∅ ∧
  e.detection_methods ⊆ detectionVocab ∧
  e.excerpt_id = computeExcerptId e.detection_methods e.ppa_span_start e.ppa_span_end ∧
  e.identification_methods ≠ ∅ ∧
  (e.ref_span_start.isNone = e.ref_span_end.isNone) ∧
  refRangeOk e.ref_span_start e.ref_span_end = true

instance (e : LabeledExcerpt) : Decidable e.Valid := by
  unfold LabeledExcerpt.Valid
  infer_instance

/-- `LabeledExcerpt(...)` construction including its
`__post_init__`: the inherited `Excerpt` checks run first, then the
identification-method emptiness check, the reference-span
both-or-neither check (on start/end only), and the reference range
check. -/
def LabeledExcerpt.make (page_id : String) (start stop : Int) (text : List Char)
    (methods : Finset String) (notes : Option String)
    (poem_id ref_corpus : String) (rstart rstop : Option Int)
    (rtext : Option (List Char)) (idMethods : Finset String) :
    Except PyErr LabeledExcerpt :=
  match Excerpt.make page_id start stop text methods notes with
  | .error e => .error e
  | .ok base =>
    if idMethods = ∅ then .error .emptyIdMethodSet
    else if rstart.isNone ≠ rstop.isNone then .error .invalidRefSpan
    else
      match rstart, rstop with
      | some rs, some re =>
        if re ≤ rs then .error (.invalidRefRange rs re)
        else .ok { page_id := base.page_id, ppa_span_start := base.ppa_span_start,
                   ppa_span_end := base.ppa_span_end, ppa_span_text := base.ppa_span_text,
                   detection_methods := base.detection_methods, notes := base.notes,
                   excerpt_id := base.excerpt_id, poem_id := poem_id, ref_corpus := ref_corpus,
                   ref_span_start := rstart, ref_span_end := rstop, ref_span_text := rtext,
                   identification_methods := idMethods }
      | _, _ =>
        .ok { page_id := base.page_id, ppa_span_start := base.ppa_span_start,
              ppa_span_end := base.ppa_span_end, ppa_span_text := base.ppa_span_text,
              detection_methods := base.detection_methods, notes := base.notes,
              excerpt_id := base.excerpt_id, poem_id := poem_id, ref_corpus := ref_corpus,
              ref_span_start := rstart, ref_span_end := rstop, ref_span_text := rtext,
              identification_methods := idMethods }

/-! ## Serialization: `to_dict`, `to_csv`, `from_dict`

The dict produced by `to_dict` / `to_csv` and consumed by `from_dict`
is modelled by a record type per class whose fields carry the
encodings `from_dict` accepts: a set-valued field is a list, a
delimited string, or a set (`SetVal`); an integer field is an integer
or a string (`IntVal`); an unset optional field is omitted (`none`).
Delimited cell strings are modelled as `List Char`. -/

/-- The encodings of a set-valued field accepted by `input_to_set`. -/
inductive SetVal where
  | ofList (l : List String) : SetVal
  | ofStr (s : List Char) : SetVal
  | ofSet (s : Finset String) : SetVal
  deriving DecidableEq

/-- The encodings of an integer field accepted by `from_dict`. -/
inductive IntVal where
  | ofInt (n : Int) : IntVal
  | ofStr (s : String) : IntVal
  deriving DecidableEq

/-- Python `text.split("; ")` on character lists: greedy left-to-right
scan for non-overlapping occurrences of the two-character delimiter
`MULTIVAL_DELIMITER = "; "`. -/
def splitDelimAux (acc : List Char) : List Char → List (List Char)
  | [] => [acc]
  | [c] => [acc ++ [c]]
  | c :: c' :: rest =>
    if c = ';' ∧ c' = ' ' then acc :: splitDelimAux [] rest
    else splitDelimAux (acc ++ [c]) (c' :: rest)

/-- Python `text.split("; ")`. -/
def splitDelim (l : List Char) : List (List Char) := splitDelimAux [] l

/-- Python `"; ".join(items)` on character lists. -/
def joinDelim : List (List Char) → List Char
  | [] => []
  | [x] => x
  | x :: y :: ys => x ++ ';' :: ' ' :: joinDelim (y :: ys)

/-- `input_to_set`: list and delimited-string inputs are converted to
a set, set inputs pass through. (Inputs of any other Python type
raise; the model's `SetVal` covers exactly the supported types.) -/
def input_to_set : SetVal → Finset String
  | .ofList l => l.toFinset
  | .ofStr s => ((splitDelim s).map String.mk).toFinset
  | .ofSet s => s

/-- The delimited-string cell written by `to_csv` for a set-valued
field: sort, then join with `"; "`. -/
def setToCsvCell (s : Finset String) : List Char :=
  joinDelim ((sortedMethods s).map String.data)

/-- The dict shape shared by `Excerpt.to_dict` and `Excerpt.to_csv`
and consumed by `Excerpt.from_dict`. -/
structure ExcerptRec where
  page_id : String
  ppa_span_start : IntVal
  ppa_span_end : IntVal
  ppa_span_text : List Char
  detection_methods : SetVal
  notes : Option String
  excerpt_id : Option String
  deriving DecidableEq

/-- `Excerpt.to_dict`, parameterized by the enumeration order of the
method set: Python's `list(value)` enumerates a set in an unspecified
(iteration) order, so theorems quantify over every enumeration. -/
def Excerpt.to_dictWith (e : Excerpt) (methodsList : List String) : ExcerptRec :=
  { page_id := e.page_id, ppa_span_start := .ofInt e.ppa_span_start,
    ppa_span_end := .ofInt e.ppa_span_end, ppa_span_text := e.ppa_span_text,
    detection_methods := .ofList methodsList, notes := e.notes,
    excerpt_id := some e.excerpt_id }

/-- `Excerpt.to_dict` with the canonical (sorted) set enumeration. -/
def Excerpt.to_dict (e : Excerpt) : ExcerptRec :=
  e.to_dictWith (sortedMethods e.detection_methods)

/-- `Excerpt.to_csv`: like `to_dict` but set-valued fields become
sorted `"; "`-joined strings (deterministic by construction). -/
def Excerpt.to_csv (e : Excerpt) : ExcerptRec :=
  { page_id := e.page_id, ppa_span_start := .ofInt e.ppa_span_start,
    ppa_span_end := .ofInt e.ppa_span_end, ppa_span_text := e.ppa_span_text,
    detection_methods := .ofStr (setToCsvCell e.detection_methods), notes := e.notes,
    excerpt_id := some e.excerpt_id }

/-- Python `int(s)` (model: optional sign and decimal digits). -/
def parsePyInt (s : String) : Except PyErr Int :=
  match s.toInt? with
  | some n => .ok n
  | none => .error (.badIntLiteral s)

/-- `from_dict`'s handling of a required integer field: strings are
converted with `int(...)`; an empty string deletes the key, after
which construction fails with a `TypeError` for the missing required
argument. -/
def readIntField (fieldName : String) (v : IntVal) : Except PyErr Int :=
  match v with
  | .ofInt n => .ok n
  | .ofStr s => if s = "" then .error (.missingField fieldName) else parsePyInt s

/-- `from_dict`'s handling of an optional integer field: an empty
string deletes the key, letting the default `None` apply. -/
def readOptIntField (v : Option IntVal) : Except PyErr (Option Int) :=
  match v with
  | none => .ok none
  | some (.ofInt n) => .ok (some n)
  | some (.ofStr s) => if s = "" then .ok none else (parsePyInt s).map some

/-- `Excerpt.from_dict`: drops any incoming `excerpt_id`, converts
set-valued fields with `input_to_set`, converts string-encoded
integers, then constructs (running `__post_init__`). -/
def Excerpt.from_dict (d : ExcerptRec) : Except PyErr Excerpt :=
  match readIntField "ppa_span_start" d.ppa_span_start with
  | .error e => .error e
  | .ok start =>
    match readIntField "ppa_span_end" d.ppa_span_end with
    | .error e => .error e
    | .ok stop =>
      Excerpt.make d.page_id start stop d.ppa_span_text
        (input_to_set d.detection_methods) d.notes

/-- The dict shape shared by `LabeledExcerpt.to_dict` and
`LabeledExcerpt.to_csv` and consumed by `LabeledExcerpt.from_dict`. -/
structure LabeledExcerptRec where
  page_id : String
  ppa_span_start : IntVal
  ppa_span_end : IntVal
  ppa_span_text : List Char
  detection_methods : SetVal
  notes : Option String
  excerpt_id : Option String
  poem_id : String
  ref_corpus : String
  ref_span_start : Option IntVal
  ref_span_end : Option IntVal
  ref_span_text : Option (List Char)
  identification_methods : SetVal
  deriving DecidableEq

/-- `LabeledExcerpt.to_dict`, parameterized by the enumeration order
of the two method sets (see `Excerpt.to_dictWith`). -/
def LabeledExcerpt.to_dictWith (e : LabeledExcerpt)
    (methodsList idMethodsList : List String) : LabeledExcerptRec :=
  { page_id := e.page_id, ppa_span_start := .ofInt e.ppa_span_start,
    ppa_span_end := .ofInt e.ppa_span_end, ppa_span_text := e.ppa_span_text,
    detection_methods := .ofList methodsList, notes := e.notes,
    excerpt_id := some e.excerpt_id, poem_id := e.poem_id, ref_corpus := e.ref_corpus,
    ref_span_start := e.ref_span_start.map .ofInt,
    ref_span_end := e.ref_span_end.map .ofInt,
    ref_span_text := e.ref_span_text,
    identification_methods := .ofList idMethodsList }

/-- `LabeledExcerpt.to_dict` with the canonical (sorted) set
enumerations. -/
def LabeledExcerpt.to_dict (e : LabeledExcerpt) : LabeledExcerptRec :=
  e.to_dictWith (sortedMethods e.detection_methods) (sortedMethods e.identification_methods)

/-- `LabeledExcerpt.to_csv`. -/
def LabeledExcerpt.to_csv (e : LabeledExcerpt) : LabeledExcerptRec :=
  { page_id := e.page_id, ppa_span_start := .ofInt e.ppa_span_start,
    ppa_span_end := .ofInt e.ppa_span_end, ppa_span_text := e.ppa_span_text,
    detection_methods := .ofStr (setToCsvCell e.detection_methods), notes := e.notes,
    excerpt_id := some e.excerpt_id, poem_id := e.poem_id, ref_corpus := e.ref_corpus,
    ref_span_start := e.ref_span_start.map .ofInt,
    ref_span_end := e.ref_span_end.map .ofInt,
    ref_span_text := e.ref_span_text,
    identification_methods := .ofStr (setToCsvCell e.identification_methods) }

/-- `LabeledExcerpt.from_dict` (the inherited classmethod with
`cls = LabeledExcerpt`): converts both set-valued fields and all four
integer fields, drops `excerpt_id`, then constructs. -/
def LabeledExcerpt.from_dict (d : LabeledExcerptRec) : Except PyErr LabeledExcerpt :=
  match readIntField "ppa_span_start" d.ppa_span_start with
  | .error e => .error e
  | .ok start =>
    match readIntField "ppa_span_end" d.ppa_span_end with
    | .error e => .error e
    | .ok stop =>
      match readOptIntField d.ref_span_start with
      | .error e => .error e
      | .ok rstart =>
        match readOptIntField d.ref_span_end with
        | .error e => .error e
        | .ok rstop =>
          LabeledExcerpt.make d.page_id start stop d.ppa_span_text
            (input_to_set d.detection_methods) d.notes d.poem_id d.ref_corpus
            rstart rstop d.ref_span_text (input_to_set d.identification_methods)

/-! ## The pairwise alignment model for `correct_page_excerpt`

`correct_page_excerpt` delegates the alignment itself to
`Bio.Align.PairwiseAligner` configured with `mismatch_score=-0.5`,
`gap_score=-0.5`, `query_left_gap_score=0`, `query_right_gap_score=0`
(and the default `match_score=1.0`), aligning the page text (target)
against the excerpt text (query). Following the spec's direction to
treat the aligner as a replaceable primitive behind a narrow
interface, the model represents a global alignment as a list of edit
operations and scores it with exactly this scheme (scaled by 2 to
stay in `ℤ`: match `+2`, mismatch `-1`, gap `-1`, target overhang
beyond either end of the query `0`). When several alignments are
optimal, BioPython returns them in an implementation-defined order
and the source uses the first, so theorems quantify over all optimal
alignments. -/

/-- One column of a pairwise alignment: an aligned character pair, a
target character aligned to a gap (`delT`, a gap in the query), or a
query character aligned to a gap (`delQ`, a gap in the target). -/
inductive Op where
  | pair : Op
  | delT : Op
  | delQ : Op
  deriving DecidableEq

/-- Score (scaled by 2) of an op list against target `t` and query
`q`; `started` records whether any query character has been consumed
yet (a `delT` before the first or after the last query character is a
query end gap, scored 0). Returns `none` when the ops do not consume
exactly `t` and `q`. -/
def alnScore : List Char → List Char → Bool → List Op → Option Int
  | [], [], _, [] => some 0
  | a :: t, b :: q, _, .pair :: ops =>
    (alnScore t q true ops).map (fun sc => sc + if a = b then 2 else -1)
  | t, _ :: q, _, .delQ :: ops =>
    (alnScore t q true ops).map (fun sc => sc - 1)
  | _ :: t, q, started, .delT :: ops =>
    (alnScore t q started ops).map
      (fun sc => if started && !q.isEmpty then sc - 1 else sc)
  | _, _, _, _ => none

/-- `ops` is a global alignment of target `t` and query `q`. -/
def IsAlignment (t q : List Char) (ops : List Op) : Prop :=
  (alnScore t q false ops).isSome

/-- `ops` is an optimal global alignment of `t` and `q` under the
source's scoring configuration. -/
def IsOptimalAlignment (t q : List Char) (ops : List Op) : Prop :=
  ∃ sc, alnScore t q false ops = some sc ∧
    ∀ ops' sc', alnScore t q false ops' = some sc' → sc' ≤ sc

/-- The target-side aligned blocks of an alignment
(`alignment.aligned[0]` in BioPython): maximal runs of aligned pairs,
as half-open ranges of target positions, `i` being the current target
position. -/
def blocksAux (i : Nat) : List Op → List (Nat × Nat)
  | [] => []
  | .pair :: ops =>
    match blocksAux (i + 1) ops with
    | [] => [(i, i + 1)]
    | (s, e) :: rest => if s = i + 1 then (i, e) :: rest else (i, i + 1) :: (s, e) :: rest
  | .delT :: ops => blocksAux (i + 1) ops
  | .delQ :: ops => blocksAux i ops

/-- The target-side aligned blocks of an alignment. -/
def blocksOf (ops : List Op) : List (Nat × Nat) := blocksAux 0 ops

/-- The end of the last block (`ppa_aligned_seqs[-1][1]`). -/
def lastEnd : Nat × Nat → List (Nat × Nat) → Nat
  | b, [] => b.2
  | _, c :: cs => lastEnd c cs

/-- Python slicing `l[a:b]` for `0 ≤ a, b`. -/
def pySlice (l : List Char) (a b : Nat) : List Char := (l.take b).drop a

/-- The body of `Excerpt.correct_page_excerpt` given the target-side
aligned blocks of the alignment chosen by the aligner: indexing the
first and last block raises `IndexError` when there are none;
otherwise `dataclasses.replace` (re-running `__post_init__`) builds
the corrected excerpt with the slice of the page text. -/
def Excerpt.correct_page_excerpt (e : Excerpt) (page_text : List Char) (ops : List Op) :
    Except PyErr Excerpt :=
  match blocksOf ops with
  | [] => .error .indexError
  | b :: bs =>
    let new_start := b.1
    let new_end := lastEnd b bs
    Excerpt.make e.page_id (new_start : Int) (new_end : Int)
      (pySlice page_text new_start new_end) e.detection_methods e.notes

/-! ## Lemmas: constructor characterizations -/

theorem Excerpt.make_eq_ok {pid : String} {s t : Int} {text : List Char}
    {ms : Finset String} {notes : Option String} {e' : Excerpt} :
    Excerpt.make pid s t text ms notes = .ok e' ↔
      s < t ∧ ms ≠ ∅ ∧ ms ⊆ detectionVocab ∧
      e' = { page_id := pid, ppa_span_start := s, ppa_span_end := t, ppa_span_text := text,
             detection_methods := ms, notes := notes,
             excerpt_id := computeExcerptId ms s t } := by
  unfold Excerpt.make
  split_ifs with h1 h2 h3
  · simp [not_lt.mpr h1]
  · simp [h2]
  · constructor
    · intro hc
      exact hc.elim
    · rintro ⟨-, -, hsub, -⟩
      exact h3 (by rwa [Finset.sdiff_eq_empty_iff_subset])
  · rw [not_not, Finset.sdiff_eq_empty_iff_subset] at h3
    simp [not_le.mp h1, h2, h3, eq_comm]

theorem Excerpt.make_valid {pid : String} {s t : Int} {text : List Char}
    {ms : Finset String} {notes : Option String} {e' : Excerpt}
    (h : Excerpt.make pid s t text ms notes = .ok e') : e'.Valid := by
  obtain ⟨h1, h2, h3, rfl⟩ := Excerpt.make_eq_ok.mp h
  exact ⟨h1, h2, h3, rfl⟩

theorem Excerpt.make_of_valid {e : Excerpt} (h : e.Valid) :
    Excerpt.make e.page_id e.ppa_span_start e.ppa_span_end e.ppa_span_text
      e.detection_methods e.notes = .ok e := by
  obtain ⟨h1, h2, h3, h4⟩ := h
  exact Excerpt.make_eq_ok.mpr ⟨h1, h2, h3, by cases e; simpa using h4⟩

theorem LabeledExcerpt.labeledMake_eq_ok {pid : String} {s t : Int} {text : List Char}
    {ms : Finset String} {notes : Option String} {poem corp : String}
    {rstart rstop : Option Int} {rtext : Option (List Char)} {ims : Finset String}
    {le : LabeledExcerpt} :
    LabeledExcerpt.make pid s t text ms notes poem corp rstart rstop rtext ims = .ok le ↔
      s < t ∧ ms ≠ ∅ ∧ ms ⊆ detectionVocab ∧ ims ≠ ∅ ∧
      rstart.isNone = rstop.isNone ∧ refRangeOk rstart rstop = true ∧
      le = { page_id := pid, ppa_span_start := s, ppa_span_end := t, ppa_span_text := text,
             detection_methods := ms, notes := notes,
             excerpt_id := computeExcerptId ms s t, poem_id := poem, ref_corpus := corp,
             ref_span_start := rstart, ref_span_end := rstop, ref_span_text := rtext,
             identification_methods := ims } := by
  unfold LabeledExcerpt.make
  rcases hbase : Excerpt.make pid s t text ms notes with err | base
  · constructor
    · intro hc
      simp at hc
    · rintro ⟨h1, h2, h3, -⟩
      have hok : Excerpt.make pid s t text ms notes =
          .ok { page_id := pid, ppa_span_start := s, ppa_span_end := t, ppa_span_text := text,
                detection_methods := ms, notes := notes,
                excerpt_id := computeExcerptId ms s t } :=
        Excerpt.make_eq_ok.mpr ⟨h1, h2, h3, rfl⟩
      rw [hbase] at hok
      simp at hok
  · obtain ⟨h1, h2, h3, rfl⟩ := Excerpt.make_eq_ok.mp hbase
    split_ifs with h4 h5
    · simp [h4, h1, h2, h3]
    · constructor
      · intro hc
        simp at hc
      · rintro ⟨-, -, -, -, hiso, -, -⟩
        simp [hiso] at h5
    · rcases rstart with _ | rs <;> rcases rstop with _ | re
      · simp_all [refRangeOk, eq_comm]
      · simp at h5
      · simp at h5
      · simp only [refRangeOk, Option.isNone_some, decide_eq_true_eq]
        split_ifs with h6
        · constructor
          · intro hc
            simp at hc
          · rintro ⟨-, -, -, -, -, hrr, -⟩
            omega
        · simp_all [eq_comm]

theorem LabeledExcerpt.labeledMake_valid {pid : String} {s t : Int} {text : List Char}
    {ms : Finset String} {notes : Option String} {poem corp : String}
    {rstart rstop : Option Int} {rtext : Option (List Char)} {ims : Finset String}
    {le : LabeledExcerpt}
    (h : LabeledExcerpt.make pid s t text ms notes poem corp rstart rstop rtext ims = .ok le) :
    le.Valid := by
  obtain ⟨h1, h2, h3, h4, h5, h6, rfl⟩ := LabeledExcerpt.labeledMake_eq_ok.mp h
  exact ⟨h1, h2, h3, rfl, h4, h5, h6⟩

theorem LabeledExcerpt.labeledMake_of_valid {e : LabeledExcerpt} (h : e.Valid) :
    LabeledExcerpt.make e.page_id e.ppa_span_start e.ppa_span_end e.ppa_span_text
      e.detection_methods e.notes e.poem_id e.ref_corpus e.ref_span_start e.ref_span_end
      e.ref_span_text e.identification_methods = .ok e := by
  obtain ⟨h1, h2, h3, h4, h5, h6, h7⟩ := h
  exact LabeledExcerpt.labeledMake_eq_ok.mpr ⟨h1, h2, h3, h5, h6, h7, by cases e; simpa using h4⟩

/-! ## Lemmas: splitting inverts joining -/

theorem splitDelimAux_no_delim (x : List Char) (h : ¬ [';', ' '] <:+: x) (acc : List Char) :
    splitDelimAux acc x = [acc ++ x] := by
  induction x generalizing acc with
  | nil => simp [splitDelimAux]
  | cons c x' ih =>
    cases x' with
    | nil => simp [splitDelimAux]
    | cons c' x'' =>
      have hcond : ¬ (c = ';' ∧ c' = ' ') := by
        rintro ⟨rfl, rfl⟩
        exact h ⟨[], x'', by simp⟩
      rw [splitDelimAux, if_neg hcond, ih (fun hinf => h (List.infix_cons hinf)) (acc ++ [c])]
      simp

theorem splitDelimAux_boundary (x : List Char) (h : ¬ [';', ' '] <:+: x) (acc j : List Char) :
    splitDelimAux acc (x ++ ';' :: ' ' :: j) = (acc ++ x) :: splitDelimAux [] j := by
  induction x generalizing acc with
  | nil =>
    rw [List.nil_append, splitDelimAux, if_pos ⟨rfl, rfl⟩]
    simp
  | cons c x' ih =>
    cases x' with
    | nil =>
      rw [List.cons_append, List.nil_append, splitDelimAux,
        if_neg (by rintro ⟨-, hc⟩; exact absurd hc (by decide)),
        splitDelimAux, if_pos ⟨rfl, rfl⟩]
    | cons c' x'' =>
      have hcond : ¬ (c = ';' ∧ c' = ' ') := by
        rintro ⟨rfl, rfl⟩
        exact h ⟨[], x'', by simp⟩
      rw [List.cons_append, List.cons_append, splitDelimAux, if_neg hcond, ← List.cons_append,
        ih (fun hinf => h (List.infix_cons hinf)) (acc ++ [c])]
      simp

theorem splitDelim_joinDelim (l : List (List Char)) (hne : l ≠ [])
    (h : ∀ x ∈ l, ¬ [';', ' '] <:+: x) : splitDelim (joinDelim l) = l := by
  induction l with
  | nil => exact absurd rfl hne
  | cons x xs ih =>
    cases xs with
    | nil =>
      show splitDelimAux [] (joinDelim [x]) = [x]
      rw [joinDelim, splitDelimAux_no_delim x (h x (by simp)) []]
      simp
    | cons y ys =>
      show splitDelimAux [] (x ++ ';' :: ' ' :: joinDelim (y :: ys)) = x :: y :: ys
      rw [splitDelimAux_boundary x (h x (by simp)) []]
      have := ih (by simp) (fun z hz => h z (List.mem_cons_of_mem x hz))
      simpa [splitDelim] using this

theorem coe_sortedMethods (s : Finset String) : (sortedMethods s : Multiset String) = s.val := by
  cases s with
  | mk val nodup =>
    induction val using Quot.inductionOn with
    | h l => exact Quot.sound (List.perm_insertionSort _ l)

theorem mem_sortedMethods {s : Finset String} {a : String} : a ∈ sortedMethods s ↔ a ∈ s := by
  rw [← Multiset.mem_coe, coe_sortedMethods s]
  exact (Finset.mem_def).symm

theorem length_sortedMethods (s : Finset String) : (sortedMethods s).length = s.card := by
  have := congrArg Multiset.card (coe_sortedMethods s)
  simpa using this

theorem toFinset_sortedMethods (s : Finset String) : (sortedMethods s).toFinset = s :=
  Finset.ext fun _ => by rw [List.mem_toFinset, mem_sortedMethods]

theorem input_to_set_setToCsvCell (s : Finset String) (hs : s ≠ ∅)
    (h : ∀ m ∈ s, ¬ [';', ' '] <:+: m.data) :
    input_to_set (.ofStr (setToCsvCell s)) = s := by
  show ((splitDelim (joinDelim ((sortedMethods s).map String.data))).map String.mk).toFinset = s
  rw [splitDelim_joinDelim]
  · rw [List.map_map]
    have hid : (String.mk ∘ String.data) = id := funext fun m => rfl
    rw [hid, List.map_id]
    exact toFinset_sortedMethods s
  · intro hc
    rw [List.map_eq_nil_iff] at hc
    have hlen := length_sortedMethods s
    rw [hc] at hlen
    exact hs (Finset.card_eq_zero.mp (by simpa using hlen.symm))
  · intro z hz
    rw [List.mem_map] at hz
    obtain ⟨m, hm, rfl⟩ := hz
    exact h m (mem_sortedMethods.mp hm)

/-! ## Lemmas: round trips -/

theorem vocab_no_delim : ∀ m ∈ detectionVocab, ¬ [';', ' '] <:+: m.data := by decide

theorem Excerpt.from_dict_to_dictWith {e : Excerpt} (hv : e.Valid) {l : List String}
    (hl : l.toFinset = e.detection_methods) :
    Excerpt.from_dict (e.to_dictWith l) = .ok e := by
  show Excerpt.make e.page_id e.ppa_span_start e.ppa_span_end e.ppa_span_text
    (input_to_set (.ofList l)) e.notes = .ok e
  rw [show input_to_set (.ofList l) = l.toFinset from rfl, hl]
  exact Excerpt.make_of_valid hv

theorem Excerpt.from_dict_to_csv {e : Excerpt} (hv : e.Valid) :
    Excerpt.from_dict e.to_csv = .ok e := by
  show Excerpt.make e.page_id e.ppa_span_start e.ppa_span_end e.ppa_span_text
    (input_to_set (.ofStr (setToCsvCell e.detection_methods))) e.notes = .ok e
  rw [input_to_set_setToCsvCell e.detection_methods hv.2.1
    (fun m hm => vocab_no_delim m (hv.2.2.1 hm))]
  exact Excerpt.make_of_valid hv

theorem readOptIntField_map_ofInt (v : Option Int) :
    readOptIntField (v.map .ofInt) = .ok v := by
  cases v <;> rfl

theorem LabeledExcerpt.labeledFrom_dict_to_dictWith {e : LabeledExcerpt} (hv : e.Valid)
    {l l' : List String} (hl : l.toFinset = e.detection_methods)
    (hl' : l'.toFinset = e.identification_methods) :
    LabeledExcerpt.from_dict (e.to_dictWith l l') = .ok e := by
  show (match readOptIntField (e.ref_span_start.map IntVal.ofInt) with
    | Except.error err => Except.error err
    | Except.ok rstart =>
      match readOptIntField (e.ref_span_end.map IntVal.ofInt) with
      | Except.error err => Except.error err
      | Except.ok rstop =>
        LabeledExcerpt.make e.page_id e.ppa_span_start e.ppa_span_end e.ppa_span_text
          (input_to_set (.ofList l)) e.notes e.poem_id e.ref_corpus
          rstart rstop e.ref_span_text (input_to_set (.ofList l'))) = Except.ok e
  rw [readOptIntField_map_ofInt, readOptIntField_map_ofInt]
  show LabeledExcerpt.make e.page_id e.ppa_span_start e.ppa_span_end e.ppa_span_text
    (input_to_set (.ofList l)) e.notes e.poem_id e.ref_corpus
    e.ref_span_start e.ref_span_end e.ref_span_text (input_to_set (.ofList l')) = .ok e
  rw [show input_to_set (.ofList l) = l.toFinset from rfl, hl,
    show input_to_set (.ofList l') = l'.toFinset from rfl, hl']
  exact LabeledExcerpt.labeledMake_of_valid hv

theorem LabeledExcerpt.labeledFrom_dict_to_csv {e : LabeledExcerpt} (hv : e.Valid)
    (hid : ∀ m ∈ e.identification_methods, ¬ [';', ' '] <:+: m.data) :
    LabeledExcerpt.from_dict e.to_csv = .ok e := by
  show (match readOptIntField (e.ref_span_start.map IntVal.ofInt) with
    | Except.error err => Except.error err
    | Except.ok rstart =>
      match readOptIntField (e.ref_span_end.map IntVal.ofInt) with
      | Except.error err => Except.error err
      | Except.ok rstop =>
        LabeledExcerpt.make e.page_id e.ppa_span_start e.ppa_span_end e.ppa_span_text
          (input_to_set (.ofStr (setToCsvCell e.detection_methods))) e.notes e.poem_id
          e.ref_corpus rstart rstop e.ref_span_text
          (input_to_set (.ofStr (setToCsvCell e.identification_methods)))) = Except.ok e
  rw [readOptIntField_map_ofInt, readOptIntField_map_ofInt]
  show LabeledExcerpt.make e.page_id e.ppa_span_start e.ppa_span_end e.ppa_span_text
    (input_to_set (.ofStr (setToCsvCell e.detection_methods))) e.notes e.poem_id
    e.ref_corpus e.ref_span_start e.ref_span_end e.ref_span_text
    (input_to_set (.ofStr (setToCsvCell e.identification_methods))) = .ok e
  rw [input_to_set_setToCsvCell e.detection_methods hv.2.1
      (fun m hm => vocab_no_delim m (hv.2.2.1 hm)),
    input_to_set_setToCsvCell e.identification_methods hv.2.2.2.2.1 hid]
  exact LabeledExcerpt.labeledMake_of_valid hv

/-! ## Lemmas: alignment scores -/

theorem alnScore_le_query (t q : List Char) (b : Bool) (ops : List Op) :
    ∀ sc, alnScore t q b ops = some sc → sc ≤ 2 * q.length := by
  induction t, q, b, ops using alnScore.induct with
  | case1 b =>
    intro sc h
    simp [alnScore] at h
    omega
  | case2 a t b' q boo ops ih =>
    intro sc h
    simp only [alnScore, Option.map_eq_some'] at h
    obtain ⟨sc', hsc', rfl⟩ := h
    have := ih sc' hsc'
    simp only [List.length_cons]
    split <;> omega
  | case3 t b' q boo ops ih =>
    intro sc h
    simp only [alnScore, Option.map_eq_some'] at h
    obtain ⟨sc', hsc', rfl⟩ := h
    have := ih sc' hsc'
    simp only [List.length_cons]
    omega
  | case4 a t q started ops ih =>
    intro sc h
    simp only [alnScore, Option.map_eq_some'] at h
    obtain ⟨sc', hsc', rfl⟩ := h
    have := ih sc' hsc'
    split <;> omega
  | case5 t q b ops h1 h2 h3 h4 =>
    intro sc h
    simp [alnScore, h1, h2, h3, h4] at h

theorem alnScore_le_target (t q : List Char) (b : Bool) (ops : List Op) :
    ∀ sc, alnScore t q b ops = some sc → sc ≤ 2 * t.length := by
  induction t, q, b, ops using alnScore.induct with
  | case1 b =>
    intro sc h
    simp [alnScore] at h
    omega
  | case2 a t b' q boo ops ih =>
    intro sc h
    simp only [alnScore, Option.map_eq_some'] at h
    obtain ⟨sc', hsc', rfl⟩ := h
    have := ih sc' hsc'
    simp only [List.length_cons]
    split <;> omega
  | case3 t b' q boo ops ih =>
    intro sc h
    simp only [alnScore, Option.map_eq_some'] at h
    obtain ⟨sc', hsc', rfl⟩ := h
    have := ih sc' hsc'
    omega
  | case4 a t q started ops ih =>
    intro sc h
    simp only [alnScore, Option.map_eq_some'] at h
    obtain ⟨sc', hsc', rfl⟩ := h
    have := ih sc' hsc'
    simp only [List.length_cons]
    split <;> omega
  | case5 t q b ops h1 h2 h3 h4 =>
    intro sc h
    simp [alnScore, h1, h2, h3, h4] at h

/-- An alignment attaining the maximal conceivable score `2 * |q|`
between sequences of equal length consists of aligned pairs only. -/
theorem alnScore_max_eq_pairs (t q : List Char) (b : Bool) (ops : List Op) :
    ∀ sc, alnScore t q b ops = some sc → sc = 2 * q.length → t.length = q.length →
      ops = List.replicate q.length .pair := by
  induction t, q, b, ops using alnScore.induct with
  | case1 b =>
    intro sc h hmax hlen
    simp
  | case2 a t b' q boo ops ih =>
    intro sc h hmax hlen
    simp only [alnScore, Option.map_eq_some'] at h
    obtain ⟨sc', hsc', rfl⟩ := h
    simp only [List.length_cons] at hmax hlen ⊢
    have hub := alnScore_le_query t q true ops sc' hsc'
    rcases eq_or_ne a b' with rfl | hne
    · rw [List.replicate_succ]
      have hsc'' : sc' = 2 * q.length := by simp at hmax; omega
      rw [ih sc' hsc' hsc'' (by omega)]
    · rw [if_neg hne] at hmax
      omega
  | case3 t b' q boo ops ih =>
    intro sc h hmax hlen
    simp only [alnScore, Option.map_eq_some'] at h
    obtain ⟨sc', hsc', rfl⟩ := h
    have hub := alnScore_le_query t q true ops sc' hsc'
    simp only [List.length_cons] at hmax
    omega
  | case4 a t q started ops ih =>
    intro sc h hmax hlen
    simp only [alnScore, Option.map_eq_some'] at h
    obtain ⟨sc', hsc', rfl⟩ := h
    have hub := alnScore_le_target t q started ops sc' hsc'
    simp only [List.length_cons] at hlen
    split at hmax <;> omega
  | case5 t q b ops h1 h2 h3 h4 =>
    intro sc h hmax hlen
    simp [alnScore, h1, h2, h3, h4] at h

/-- The all-pairs alignment of a string against itself scores the
maximum `2 * |s|`. -/
theorem alnScore_self_replicate (s : List Char) (b : Bool) :
    alnScore s s b (List.replicate s.length .pair) = some (2 * (s.length : Int)) := by
  induction s generalizing b with
  | nil => simp [alnScore]
  | cons a s ih =>
    simp only [List.length_cons, List.replicate_succ, alnScore, ih true, Option.map_some',
      eq_self_iff_true, if_true, Option.some.injEq]
    push_cast
    ring

/-- The all-pairs alignment of a string against itself is optimal. -/
theorem self_replicate_optimal (s : List Char) :
    IsOptimalAlignment s s (List.replicate s.length .pair) := by
  refine ⟨2 * (s.length : Int), alnScore_self_replicate s false, ?_⟩
  intro ops' sc' h
  simpa using alnScore_le_query s s false ops' sc' h

/-- Conversely, every optimal alignment of a string against itself is
the all-pairs alignment. -/
theorem optimal_self_eq_replicate (s : List Char) (ops : List Op)
    (h : IsOptimalAlignment s s ops) : ops = List.replicate s.length .pair := by
  obtain ⟨sc, hsc, hbound⟩ := h
  have h1 := hbound (List.replicate s.length .pair) (2 * (s.length : Int))
    (alnScore_self_replicate s false)
  have h2 := alnScore_le_query s s false ops sc hsc
  exact alnScore_max_eq_pairs s s false ops sc hsc (by omega) rfl

/-- The only alignment against an empty target consists of query
deletions. -/
theorem alignment_empty_target (t q : List Char) (b : Bool) (ops : List Op) :
    ∀ sc, alnScore t q b ops = some sc → t = [] →
      ops = List.replicate q.length .delQ ∧ sc = -(q.length : Int) := by
  induction t, q, b, ops using alnScore.induct with
  | case1 b =>
    intro sc h ht
    simp [alnScore] at h
    simp [h]
  | case2 a t b' q boo ops ih =>
    intro sc h ht
    exact absurd ht (by simp)
  | case3 t b' q boo ops ih =>
    intro sc h ht
    subst ht
    simp only [alnScore, Option.map_eq_some'] at h
    obtain ⟨sc', hsc', rfl⟩ := h
    obtain ⟨hops, hsc''⟩ := ih sc' hsc' rfl
    subst hops
    simp only [List.length_cons, List.replicate_succ]
    constructor
    · trivial
    · push_cast
      omega
  | case4 a t q started ops ih =>
    intro sc h ht
    exact absurd ht (by simp)
  | case5 t q b ops h1 h2 h3 h4 =>
    intro sc h ht
    simp [alnScore, h1, h2, h3, h4] at h

/-! ## Lemmas: aligned blocks -/

theorem blocksAux_replicate_pair (n i : Nat) :
    blocksAux i (List.replicate (n + 1) .pair) = [(i, i + (n + 1))] := by
  induction n generalizing i with
  | zero => simp [blocksAux]
  | succ n ih =>
    rw [List.replicate_succ, blocksAux, ih (i + 1)]
    show (if i + 1 = i + 1 then [(i, i + 1 + (n + 1))] else
      [(i, i + 1), (i + 1, i + 1 + (n + 1))]) = [(i, i + (n + 1 + 1))]
    rw [if_pos rfl]
    have harith : i + 1 + (n + 1) = i + (n + 1 + 1) := by omega
    rw [harith]

/-- The last block end (`lastEnd`) ignores the head block's start. -/
theorem lastEnd_congr (a₁ a₂ e : Nat) (bs : List (Nat × Nat)) :
    lastEnd (a₁, e) bs = lastEnd (a₂, e) bs := by
  cases bs <;> rfl

/-- Every nonempty block list produced by `blocksAux i` starts at or
after `i` and has its first start strictly below its last end. -/
theorem blocksAux_bounds (ops : List Op) :
    ∀ i b bs, blocksAux i ops = b :: bs → i ≤ b.1 ∧ b.1 < lastEnd b bs := by
  induction ops with
  | nil =>
    intro i b bs h
    simp [blocksAux] at h
  | cons op ops ih =>
    intro i b bs h
    cases op with
    | pair =>
      rw [blocksAux] at h
      rcases hrec : blocksAux (i + 1) ops with _ | ⟨⟨s, e⟩, rest⟩
      · rw [hrec] at h
        simp only [List.cons.injEq] at h
        obtain ⟨rfl, rfl⟩ := h
        simp [lastEnd]
      · rw [hrec] at h
        obtain ⟨hle, hlt⟩ := ih (i + 1) (s, e) rest hrec
        have h' : (if s = i + 1 then (i, e) :: rest
            else (i, i + 1) :: (s, e) :: rest) = b :: bs := h
        clear h
        split_ifs at h' with hs
        · simp only [List.cons.injEq] at h'
          obtain ⟨rfl, rfl⟩ := h'
          refine ⟨le_refl i, ?_⟩
          cases rest with
          | nil =>
            simp only [lastEnd] at hlt ⊢
            omega
          | cons c cs =>
            simp only [lastEnd] at hlt ⊢
            omega
        · simp only [List.cons.injEq] at h'
          obtain ⟨rfl, rfl⟩ := h'
          refine ⟨le_refl i, ?_⟩
          simp only [lastEnd]
          cases rest with
          | nil =>
            simp only [lastEnd] at hlt ⊢
            omega
          | cons c cs =>
            simp only [lastEnd] at hlt ⊢
            omega
    | delT =>
      rw [blocksAux] at h
      obtain ⟨hle, hlt⟩ := ih (i + 1) b bs h
      exact ⟨by omega, hlt⟩
    | delQ =>
      rw [blocksAux] at h
      exact ih i b bs h

/-! ## Concrete instances used by witnesses and counterexamples -/

/-- A valid excerpt whose text carries surrounding whitespace but whose
offsets span a single character (offsets are not tied to text length). -/
def c9ex : Excerpt where
  page_id := "pg"
  ppa_span_start := 0
  ppa_span_end := 1
  ppa_span_text := [' ', 'a', ' ']
  detection_methods := {"manual"}
  notes := none
  excerpt_id := "m@0:1"

/-- The spec's whitespace-stripping example: text of seven characters
with two spaces on each side, offsets 0..7. -/
def c9wit : Excerpt where
  page_id := "pg"
  ppa_span_start := 0
  ppa_span_end := 7
  ppa_span_text := [' ', ' ', 'a', 'b', 'c', ' ', ' ']
  detection_methods := {"manual"}
  notes := none
  excerpt_id := "m@0:7"

/-- A valid excerpt whose text is a single space. -/
def c10wit : Excerpt where
  page_id := "pg"
  ppa_span_start := 0
  ppa_span_end := 1
  ppa_span_text := [' ']
  detection_methods := {"manual"}
  notes := none
  excerpt_id := "m@0:1"

/-- A single-manual-method excerpt at offsets 0..2. -/
def c4wit : Excerpt where
  page_id := "pg"
  ppa_span_start := 0
  ppa_span_end := 2
  ppa_span_text := ['a', 'b']
  detection_methods := {"manual"}
  notes := none
  excerpt_id := "m@0:2"

/-- A two-method excerpt at offsets 0..2. -/
def c4wit2 : Excerpt where
  page_id := "pg"
  ppa_span_start := 0
  ppa_span_end := 2
  ppa_span_text := ['a', 'b']
  detection_methods := {"manual", "passim"}
  notes := none
  excerpt_id := "c@0:2"

/-- A serialized excerpt record (as consumed by `from_dict`). -/
def c4witRec : ExcerptRec where
  page_id := "pg"
  ppa_span_start := .ofInt 0
  ppa_span_end := .ofInt 2
  ppa_span_text := ['a', 'b']
  detection_methods := .ofList ["manual"]
  notes := none
  excerpt_id := none

/-- A labeled excerpt with `ref_span_text` set but both reference
offsets unset. -/
def c7ex : LabeledExcerpt where
  page_id := "pg"
  ppa_span_start := 0
  ppa_span_end := 1
  ppa_span_text := ['a']
  detection_methods := {"manual"}
  notes := none
  excerpt_id := "m@0:1"
  poem_id := "poem"
  ref_corpus := "corp"
  ref_span_start := none
  ref_span_end := none
  ref_span_text := some ['x']
  identification_methods := {"refsbank"}

/-! ## Claim theorems -/

/-- Claim C6 (confirmed): for all integers `a >= b`, constructing a
`Span` with `start=a, end=b`, or an `Excerpt` with
`ppa_span_start=a, ppa_span_end=b`, fails with the range error raised
by the respective `__post_init__` (construction being the single
validation gate). -/
theorem claim6_theorem :
    ∀ a b : Int, a ≥ b →
      (∀ label, Span.make a b label = .error .spanInvalidRange) ∧
      (∀ pid text ms notes, Excerpt.make pid a b text ms notes = .error (.invalidRange a b)) := by
  intro a b hab
  refine ⟨fun label => ?_, fun pid text ms notes => ?_⟩
  · unfold Span.make
    rw [if_pos (by omega)]
  · unfold Excerpt.make
    rw [if_pos (by omega)]

theorem claim6_witness :
    Span.make 5 3 "poem" = .error .spanInvalidRange ∧
    Excerpt.make "pg" 5 3 ['a'] {"manual"} none = .error (.invalidRange 5 3) :=
  ⟨(claim6_theorem 5 3 (by decide)).1 "poem",
   (claim6_theorem 5 3 (by decide)).2 "pg" ['a'] {"manual"} none⟩

/-- Claim C5 (confirmed): constructing an `Excerpt` with an empty
detection method set fails; with a valid span and any member outside
the fixed vocabulary (whatever the set size) it fails with the
detection method error carrying exactly the offending values; in
particular the method set containing only `"bogus"` yields the error
naming `"bogus"`. -/
theorem claim5_theorem :
    (∀ pid s t text notes, ∃ err, Excerpt.make pid s t text ∅ notes = .error err) ∧
    (∀ pid s t text ms notes, s < t → ¬ ms ⊆ detectionVocab →
      ms \ detectionVocab ≠ ∅ ∧
      Excerpt.make pid s t text ms notes = .error (.unsupportedMethods (ms \ detectionVocab))) ∧
    ("bogus" ∈ ({"bogus"} : Finset String) ∧
      Excerpt.make "pg" 0 1 ['a'] {"bogus"} none = .error (.unsupportedMethods {"bogus"})) := by
  refine ⟨?_, ?_, by decide⟩
  · intro pid s t text notes
    unfold Excerpt.make
    split_ifs with h1 h2 h3
    · exact ⟨_, rfl⟩
    · exact ⟨_, rfl⟩
    · exact ⟨_, rfl⟩
    · exact absurd rfl h2
  · intro pid s t text ms notes hst hsub
    have hd : ms \ detectionVocab ≠ ∅ := fun hc => hsub (Finset.sdiff_eq_empty_iff_subset.mp hc)
    have hm : ms ≠ ∅ := by
      rintro rfl
      exact hsub (Finset.empty_subset _)
    refine ⟨hd, ?_⟩
    unfold Excerpt.make
    rw [if_neg (by omega), if_neg hm, if_pos hd]

theorem claim5_witness :
    (∃ err, Excerpt.make "pg" 0 1 ['a'] ∅ none = .error err) ∧
    ({"manual", "bogus"} \ detectionVocab ≠ ∅ ∧
      Excerpt.make "pg" 0 2 ['b'] {"manual", "bogus"} none =
        .error (.unsupportedMethods ({"manual", "bogus"} \ detectionVocab))) :=
  ⟨claim5_theorem.1 "pg" 0 1 ['a'] none,
   claim5_theorem.2.1 "pg" 0 2 ['b'] {"manual", "bogus"} none (by decide) (by decide)⟩

/-- Claim C4 (confirmed): the excerpt id is derived, never taken from
input: a single `"manual"` detection method yields
`"m@" ++ start ++ ":" ++ end`; two or more methods always yield an id
beginning with `"c@"`; and `from_dict` ignores any `excerpt_id`
present in its input. -/
theorem claim4_theorem :
    (∀ pid s t text notes e',
      Excerpt.make pid s t text {"manual"} notes = .ok e' →
      e'.excerpt_id = "m@" ++ toString s ++ ":" ++ toString t) ∧
    (∀ pid s t text ms notes e', 2 ≤ ms.card →
      Excerpt.make pid s t text ms notes = .ok e' →
      ∃ r, e'.excerpt_id = "c@" ++ r) ∧
    (∀ (d : ExcerptRec) (x : Option String),
      Excerpt.from_dict { d with excerpt_id := x } = Excerpt.from_dict d) := by
  refine ⟨?_, ?_, ?_⟩
  · intro pid s t text notes e' h
    obtain ⟨-, -, -, rfl⟩ := Excerpt.make_eq_ok.mp h
    show computeExcerptId {"manual"} s t = "m@" ++ toString s ++ ":" ++ toString t
    unfold computeExcerptId
    rw [show methodPrefix {"manual"} = "m" from by decide,
      show ("m" ++ "@" : String) = "m@" from rfl]
  · intro pid s t text ms notes e' hcard h
    obtain ⟨-, -, -, rfl⟩ := Excerpt.make_eq_ok.mp h
    refine ⟨toString s ++ (":" ++ toString t), ?_⟩
    show computeExcerptId ms s t = "c@" ++ (toString s ++ (":" ++ toString t))
    unfold computeExcerptId
    have hpfx : methodPrefix ms = "c" := by
      unfold methodPrefix
      rcases hs : sortedMethods ms with _ | ⟨m, _ | ⟨m', rest⟩⟩
      · rfl
      · exfalso
        have hlen := length_sortedMethods ms
        rw [hs] at hlen
        simp at hlen
        omega
      · rfl
    rw [hpfx, show ("c" ++ "@" : String) = "c@" from rfl, String.append_assoc,
      String.append_assoc]
  · intro d x
    rfl

theorem claim4_witness :
    (c4wit.excerpt_id = "m@" ++ toString (0 : Int) ++ ":" ++ toString (2 : Int)) ∧
    (∃ r, c4wit2.excerpt_id = "c@" ++ r) ∧
    Excerpt.from_dict { c4witRec with excerpt_id := some "zzz" } = Excerpt.from_dict c4witRec :=
  ⟨claim4_theorem.1 "pg" 0 2 ['a', 'b'] none c4wit (by decide),
   claim4_theorem.2.1 "pg" 0 2 ['a', 'b'] {"manual", "passim"} none c4wit2 (by decide) (by decide),
   claim4_theorem.2.2 c4witRec (some "zzz")⟩

/-- Claim C7 counterexample: a `LabeledExcerpt` whose three
reference-span fields are partially set (only `ref_span_text` is set)
constructs successfully instead of raising: the source only checks
`ref_span_start` against `ref_span_end`. -/
theorem claim7_counterexample :
    LabeledExcerpt.make "pg" 0 1 ['a'] {"manual"} none "poem" "corp"
      none none (some ['x']) {"refsbank"} = .ok c7ex := by decide

/-- Claim C7 (amended): constructing a `LabeledExcerpt` with exactly
one of `ref_span_start` / `ref_span_end` set (the text field playing
no role in the check) raises the reference-span error, provided the
checks that run earlier pass; when both are set, `ref_span_end >
ref_span_start` is additionally required. -/
theorem claim7_theorem :
    (∀ pid s t text ms notes poem corp rstart rstop rtext ims,
      s < t → ms ≠ ∅ → ms ⊆ detectionVocab → ims ≠ ∅ →
      rstart.isNone ≠ rstop.isNone →
      LabeledExcerpt.make pid s t text ms notes poem corp rstart rstop rtext ims =
        .error .invalidRefSpan) ∧
    (∀ pid s t text ms notes poem corp rs re rtext ims,
      s < t → ms ≠ ∅ → ms ⊆ detectionVocab → ims ≠ ∅ → re ≤ rs →
      LabeledExcerpt.make pid s t text ms notes poem corp (some rs) (some re) rtext ims =
        .error (.invalidRefRange rs re)) := by
  constructor
  · intro pid s t text ms notes poem corp rstart rstop rtext ims hst hm hsub him hxor
    unfold LabeledExcerpt.make
    simp only [Excerpt.make_eq_ok.mpr ⟨hst, hm, hsub, rfl⟩]
    rw [if_neg him, if_pos hxor]
  · intro pid s t text ms notes poem corp rs re rtext ims hst hm hsub him hre
    unfold LabeledExcerpt.make
    simp only [Excerpt.make_eq_ok.mpr ⟨hst, hm, hsub, rfl⟩]
    rw [if_neg him, if_neg (by simp), if_pos hre]

theorem claim7_witness :
    LabeledExcerpt.make "pg" 0 1 ['a'] {"manual"} none "poem" "corp"
      (some 3) none none {"refsbank"} = .error .invalidRefSpan ∧
    LabeledExcerpt.make "pg" 0 1 ['a'] {"manual"} none "poem" "corp"
      (some 3) (some 3) none {"refsbank"} = .error (.invalidRefRange 3 3) :=
  ⟨claim7_theorem.1 "pg" 0 1 ['a'] {"manual"} none "poem" "corp"
      (some 3) none none {"refsbank"} (by decide) (by decide) (by decide) (by decide) (by decide),
   claim7_theorem.2 "pg" 0 1 ['a'] {"manual"} none "poem" "corp"
      3 3 none {"refsbank"} (by decide) (by decide) (by decide) (by decide) (by decide)⟩

/-- Claim C9 counterexample: a valid excerpt whose text is `" a "` but
whose offsets span a single position; stripping one space from each
side collapses the interval, so `strip_whitespace` raises the range
error instead of returning an excerpt. -/
theorem claim9_counterexample :
    c9ex.Valid ∧ (∃ c ∈ c9ex.ppa_span_text, isPySpace c = false) ∧
    lstripCount c9ex.ppa_span_text = 1 ∧ rstripCount c9ex.ppa_span_text = 1 ∧
    c9ex.strip_whitespace = .error (.invalidRange 1 0) := by decide

/-- Claim C9 (amended): for every valid excerpt whose text has `l`
leading and `r` trailing whitespace characters and at least one
non-whitespace character, and whose offsets satisfy
`end - start > l + r` (as when the offsets span the text),
`strip_whitespace` returns the stripped text with the start advanced
by exactly `l` and the end reduced by exactly `r`. -/
theorem claim9_theorem :
    ∀ e : Excerpt, e.Valid →
      (∃ c ∈ e.ppa_span_text, isPySpace c = false) →
      e.ppa_span_end - e.ppa_span_start >
        (lstripCount e.ppa_span_text : Int) + (rstripCount e.ppa_span_text : Int) →
      ∃ e', e.strip_whitespace = .ok e' ∧
        e'.ppa_span_text = stripChars e.ppa_span_text ∧
        e'.ppa_span_start = e.ppa_span_start + (lstripCount e.ppa_span_text : Int) ∧
        e'.ppa_span_end = e.ppa_span_end - (rstripCount e.ppa_span_text : Int) := by
  intro e hv _ hrange
  exact ⟨_, Excerpt.make_eq_ok.mpr ⟨by omega, hv.2.1, hv.2.2.1, rfl⟩, rfl, rfl, rfl⟩

theorem claim9_witness :
    c9wit.Valid ∧
    (∃ e', c9wit.strip_whitespace = .ok e' ∧
      e'.ppa_span_text = stripChars c9wit.ppa_span_text ∧
      e'.ppa_span_start = c9wit.ppa_span_start + (lstripCount c9wit.ppa_span_text : Int) ∧
      e'.ppa_span_end = c9wit.ppa_span_end - (rstripCount c9wit.ppa_span_text : Int)) :=
  ⟨by decide, claim9_theorem c9wit (by decide) (by decide) (by decide)⟩

/-- Claim C10 (confirmed): `strip_whitespace` is not total: on a
non-empty all-whitespace text at least as long as the span width, the
inward-shifted offsets collapse and the re-validation raises the
interval error. -/
theorem claim10_theorem :
    ∀ e : Excerpt, e.ppa_span_text ≠ [] →
      (∀ c ∈ e.ppa_span_text, isPySpace c = true) →
      (e.ppa_span_text.length : Int) ≥ e.ppa_span_end - e.ppa_span_start →
      e.strip_whitespace = .error (.invalidRange
        (e.ppa_span_start + (e.ppa_span_text.length : Int))
        (e.ppa_span_end - (e.ppa_span_text.length : Int))) := by
  intro e hne hws hlen
  have hl : lstripCount e.ppa_span_text = e.ppa_span_text.length := by
    unfold lstripCount
    rw [List.takeWhile_eq_self_iff.mpr hws]
  have hr : rstripCount e.ppa_span_text = e.ppa_span_text.length := by
    unfold rstripCount
    rw [List.takeWhile_eq_self_iff.mpr (fun c hc => hws c (List.mem_reverse.mp hc)),
      List.length_reverse]
  unfold Excerpt.strip_whitespace Excerpt.make
  rw [hl, hr, if_pos (by omega)]

theorem claim10_witness :
    c10wit.strip_whitespace = .error (.invalidRange 1 0) :=
  claim10_theorem c10wit (by decide) (by decide) (by decide)

/-- Claim C8 counterexample: two spans with the same interval but
different labels are an exact match ignoring label, yet the overlap
factor (whose default is label-sensitive) is `0`, not `1`. -/
theorem claim8_counterexample :
    (Span.mk 0 1 "a").is_exact_match (Span.mk 0 1 "b") true = true ∧
    (Span.mk 0 1 "a").overlap_factor (Span.mk 0 1 "b") false = 0 := by
  constructor
  · decide
  · unfold Span.overlap_factor Span.overlap_length Span.has_overlap
    norm_num
    left
    decide

/-- Claim C8 (amended): the overlap factor always lies in `[0, 1]`,
and it equals `1` exactly when the spans are an exact match under the
same label-sensitivity flag the factor was computed with (equal
interval, and equal label unless labels are ignored). -/
theorem claim8_theorem :
    ∀ x y : Span, x.Valid → y.Valid → ∀ fl : Bool,
      (0 ≤ x.overlap_factor y fl ∧ x.overlap_factor y fl ≤ 1) ∧
      (x.overlap_factor y fl = 1 ↔ x.is_exact_match y fl = true) := by
  intro x y hx hy fl
  rw [Span.Valid] at hx hy
  have hxlen : 0 < x.length := by
    unfold Span.length
    omega
  have hylen : 0 < y.length := by
    unfold Span.length
    omega
  have hmax : (0 : Int) < max x.length y.length := lt_max_of_lt_left hxlen
  have hbnd : 0 ≤ x.overlap_length y fl ∧ x.overlap_length y fl ≤ max x.length y.length := by
    unfold Span.overlap_length
    split_ifs with hov
    · unfold Span.has_overlap at hov
      split_ifs at hov with hlab
      simp only [Bool.and_eq_true, decide_eq_true_eq] at hov
      unfold Span.length
      rw [min_def, max_def, max_def]
      split_ifs <;> (unfold Span.length at *; omega)
    · exact ⟨le_refl 0, le_of_lt hmax⟩
  have hmaxq : ((max x.length y.length : Int) : ℚ) ≠ 0 := by
    exact_mod_cast ne_of_gt hmax
  unfold Span.overlap_factor
  constructor
  · constructor
    · apply div_nonneg
      · exact_mod_cast hbnd.1
      · exact_mod_cast le_of_lt hmax
    · rw [div_le_one (by exact_mod_cast hmax)]
      exact_mod_cast hbnd.2
  · rw [div_eq_one_iff_eq hmaxq]
    constructor
    · intro heq
      have holmx : x.overlap_length y fl = max x.length y.length := by exact_mod_cast heq
      unfold Span.overlap_length at holmx
      split_ifs at holmx with hov
      · unfold Span.has_overlap at hov
        split_ifs at hov with hlab
        simp only [Bool.and_eq_true, decide_eq_true_eq] at hov
        have hse : x.start = y.start ∧ x.stop = y.stop := by
          unfold Span.length at holmx
          rw [min_def, max_def, max_def] at holmx
          split_ifs at holmx <;> omega
        unfold Span.is_exact_match
        rw [if_pos (by simp [hse.1, hse.2])]
        exact hlab
      · exfalso
        rw [max_def] at holmx
        split_ifs at holmx <;> omega
    · intro hem
      unfold Span.is_exact_match at hem
      split_ifs at hem with hse
      simp only [Bool.and_eq_true, beq_iff_eq] at hse
      have hov : x.has_overlap y fl = true := by
        unfold Span.has_overlap
        rw [if_pos hem]
        simp only [Bool.and_eq_true, decide_eq_true_eq]
        omega
      have hint : x.overlap_length y fl = max x.length y.length := by
        unfold Span.overlap_length
        rw [if_pos hov]
        unfold Span.length
        rw [min_def, max_def, max_def]
        split_ifs <;> omega
      exact_mod_cast hint

theorem claim8_witness :
    (0 ≤ (Span.mk 0 2 "poem").overlap_factor (Span.mk 1 3 "poem") false ∧
      (Span.mk 0 2 "poem").overlap_factor (Span.mk 1 3 "poem") false ≤ 1) ∧
    ((Span.mk 0 2 "poem").overlap_factor (Span.mk 1 3 "poem") false = 1 ↔
      (Span.mk 0 2 "poem").is_exact_match (Span.mk 1 3 "poem") false = true) :=
  claim8_theorem (Span.mk 0 2 "poem") (Span.mk 1 3 "poem") (by decide) (by decide) false

/-- A valid labeled excerpt whose identification method contains the
multi-value delimiter `"; "` inside the method name. -/
def c2ex : LabeledExcerpt where
  page_id := "pg"
  ppa_span_start := 0
  ppa_span_end := 1
  ppa_span_text := ['a']
  detection_methods := {"manual"}
  notes := none
  excerpt_id := "m@0:1"
  poem_id := "poem"
  ref_corpus := "corp"
  ref_span_start := none
  ref_span_end := none
  ref_span_text := none
  identification_methods := {"x; y"}

/-- A valid excerpt with two detection methods and a note. -/
def c2wit : Excerpt where
  page_id := "pg"
  ppa_span_start := 0
  ppa_span_end := 2
  ppa_span_text := ['a', 'b']
  detection_methods := {"manual", "passim"}
  notes := some "note"
  excerpt_id := "c@0:2"

/-- A valid labeled excerpt with all optional fields set. -/
def c2lwit : LabeledExcerpt where
  page_id := "pg"
  ppa_span_start := 0
  ppa_span_end := 2
  ppa_span_text := ['a', 'b']
  detection_methods := {"manual", "passim"}
  notes := some "note"
  excerpt_id := "c@0:2"
  poem_id := "poem"
  ref_corpus := "corp"
  ref_span_start := some 1
  ref_span_end := some 4
  ref_span_text := some ['x', 'y', 'z']
  identification_methods := {"refsbank"}

/-- Claim C2 counterexample: the CSV round trip is not lossless for a
valid `LabeledExcerpt` whose identification method contains the
delimiter `"; "`: splitting the joined cell changes the set. -/
theorem claim2_counterexample :
    c2ex.Valid ∧ LabeledExcerpt.from_dict c2ex.to_csv ≠ .ok c2ex := by decide

/-- Claim C2 (amended): `from_dict` inverts `to_dict` (for any set
enumeration order) and `to_csv` for every valid `Excerpt` and
`LabeledExcerpt`, provided — for the flat encoding only — that no
member of a set-valued field contains the delimiter `"; "` as a
substring (automatic for detection methods, which are drawn from the
fixed vocabulary; only unvalidated identification methods can violate
it). -/
theorem claim2_theorem :
    (∀ (e : Excerpt) (l : List String), e.Valid → l.toFinset = e.detection_methods →
      Excerpt.from_dict (e.to_dictWith l) = .ok e) ∧
    (∀ e : Excerpt, e.Valid →
      Excerpt.from_dict e.to_dict = .ok e ∧ Excerpt.from_dict e.to_csv = .ok e) ∧
    (∀ (le : LabeledExcerpt) (l l' : List String), le.Valid →
      l.toFinset = le.detection_methods → l'.toFinset = le.identification_methods →
      LabeledExcerpt.from_dict (le.to_dictWith l l') = .ok le) ∧
    (∀ le : LabeledExcerpt, le.Valid →
      LabeledExcerpt.from_dict le.to_dict = .ok le ∧
      ((∀ m ∈ le.identification_methods, ¬ [';', ' '] <:+: m.data) →
        LabeledExcerpt.from_dict le.to_csv = .ok le)) :=
  ⟨fun _ _ hv hl => Excerpt.from_dict_to_dictWith hv hl,
   fun _ hv => ⟨Excerpt.from_dict_to_dictWith hv (toFinset_sortedMethods _),
     Excerpt.from_dict_to_csv hv⟩,
   fun _ _ _ hv hl hl' => LabeledExcerpt.labeledFrom_dict_to_dictWith hv hl hl',
   fun _ hv => ⟨LabeledExcerpt.labeledFrom_dict_to_dictWith hv (toFinset_sortedMethods _)
       (toFinset_sortedMethods _),
     fun hid => LabeledExcerpt.labeledFrom_dict_to_csv hv hid⟩⟩

theorem claim2_witness :
    Excerpt.from_dict (c2wit.to_dictWith ["passim", "manual"]) = .ok c2wit ∧
    Excerpt.from_dict c2wit.to_dict = .ok c2wit ∧
    Excerpt.from_dict c2wit.to_csv = .ok c2wit ∧
    LabeledExcerpt.from_dict c2lwit.to_dict = .ok c2lwit ∧
    LabeledExcerpt.from_dict c2lwit.to_csv = .ok c2lwit :=
  ⟨claim2_theorem.1 c2wit ["passim", "manual"] (by decide) (by decide),
   (claim2_theorem.2.1 c2wit (by decide)).1,
   (claim2_theorem.2.1 c2wit (by decide)).2,
   (claim2_theorem.2.2.2 c2lwit (by decide)).1,
   (claim2_theorem.2.2.2 c2lwit (by decide)).2 (by decide)⟩

/-! ## Claims about the realignment engine -/

/-- A valid single-character excerpt used with the alignment claims. -/
def c1ex : Excerpt where
  page_id := "pg"
  ppa_span_start := 0
  ppa_span_end := 1
  ppa_span_text := ['a']
  detection_methods := {"manual"}
  notes := none
  excerpt_id := "m@0:1"

/-- A valid two-character excerpt whose text equals the page text. -/
def c3wit : Excerpt where
  page_id := "pg"
  ppa_span_start := 0
  ppa_span_end := 2
  ppa_span_text := ['a', 'b']
  detection_methods := {"manual"}
  notes := none
  excerpt_id := "m@0:2"

/-- A constructible excerpt with empty text: `__post_init__` never
validates `ppa_span_text`, only the offsets. -/
def c3ex : Excerpt where
  page_id := "pg"
  ppa_span_start := 0
  ppa_span_end := 1
  ppa_span_text := []
  detection_methods := {"manual"}
  notes := none
  excerpt_id := "m@0:1"

/-- Claim C3 counterexample: an excerpt with empty text is a valid
`Excerpt`, and with `page_text` equal to that (empty) text the unique
optimal alignment has no aligned blocks, so `correct_page_excerpt`
raises (the model returns the `IndexError` of `ppa_aligned_seqs[0]`)
instead of returning offsets `0..len(page_text)`. -/
theorem claim3_counterexample :
    c3ex.Valid ∧ c3ex.ppa_span_text = ([] : List Char) ∧
    IsOptimalAlignment c3ex.ppa_span_text c3ex.ppa_span_text [] ∧
    c3ex.correct_page_excerpt c3ex.ppa_span_text [] = .error .indexError := by
  refine ⟨by decide, rfl, ⟨0, rfl, ?_⟩, by decide⟩
  intro ops' sc' h
  have hh := alignment_empty_target [] [] false ops' sc' h rfl
  have hsc : sc' = 0 := by simpa using hh.2
  omega

/-- Claim C3 (amended): when the page text equals the excerpt text
and that text is non-empty, every optimal alignment is the all-pairs
identity alignment, so `correct_page_excerpt` returns offsets
`0..len(text)` and the identical text; the non-emptiness hypothesis
is forced, since an empty-text excerpt is constructible and makes the
method raise (see the counterexample). -/
theorem claim3_theorem :
    ∀ (e : Excerpt) (ops : List Op), e.Valid → e.ppa_span_text ≠ [] →
      IsOptimalAlignment e.ppa_span_text e.ppa_span_text ops →
      ∃ e', e.correct_page_excerpt e.ppa_span_text ops = .ok e' ∧
        e'.ppa_span_start = 0 ∧ e'.ppa_span_end = (e.ppa_span_text.length : Int) ∧
        e'.ppa_span_text = e.ppa_span_text := by
  intro e ops hv hne hopt
  have hops := optimal_self_eq_replicate _ ops hopt
  subst hops
  obtain ⟨n, hn⟩ : ∃ n, e.ppa_span_text.length = n + 1 := by
    rcases ht : e.ppa_span_text with _ | ⟨c, cs⟩
    · exact absurd ht hne
    · exact ⟨cs.length, by simp [ht]⟩
  unfold Excerpt.correct_page_excerpt
  have hb : blocksOf (List.replicate e.ppa_span_text.length .pair) =
      [(0, e.ppa_span_text.length)] := by
    unfold blocksOf
    rw [hn, blocksAux_replicate_pair n 0]
    norm_num
  rw [hb]
  have hslice : pySlice e.ppa_span_text 0 e.ppa_span_text.length = e.ppa_span_text := by
    unfold pySlice
    rw [List.drop_zero, List.take_length]
  refine ⟨_, Excerpt.make_eq_ok.mpr ⟨?_, hv.2.1, hv.2.2.1, rfl⟩, by simp, ?_, ?_⟩
  · have hp : 0 < e.ppa_span_text.length := by omega
    exact_mod_cast hp
  · show ((lastEnd (0, e.ppa_span_text.length) [] : Nat) : Int) = (e.ppa_span_text.length : Int)
    rfl
  · exact hslice

theorem claim3_witness :
    ∃ e', c3wit.correct_page_excerpt c3wit.ppa_span_text (List.replicate 2 .pair) = .ok e' ∧
      e'.ppa_span_start = 0 ∧ e'.ppa_span_end = (c3wit.ppa_span_text.length : Int) ∧
      e'.ppa_span_text = c3wit.ppa_span_text :=
  claim3_theorem c3wit (List.replicate 2 .pair) (by decide) (by decide)
    (self_replicate_optimal ['a', 'b'])

/-- Claim C1 counterexample: on an empty page text, the (unique,
optimal) alignment has no aligned blocks, and `correct_page_excerpt`
raises (the model returns the `IndexError` of `ppa_aligned_seqs[0]`)
instead of returning an `Excerpt`. -/
theorem claim1_counterexample :
    c1ex.Valid ∧ IsOptimalAlignment [] c1ex.ppa_span_text [.delQ] ∧
    c1ex.correct_page_excerpt [] [.delQ] = .error .indexError := by
  refine ⟨by decide, ⟨-1, by decide, ?_⟩, by decide⟩
  intro ops' sc' h
  have hh := alignment_empty_target [] c1ex.ppa_span_text false ops' sc' h rfl
  have hsc : sc' = -1 := by simpa using hh.2
  omega

/-- Claim C1 (amended): for every optimal alignment that aligns at
least one character pair (non-empty block list),
`correct_page_excerpt` returns a structurally valid `Excerpt` whose
text is exactly the slice `page_text[new_start:new_end]` and whose
offsets satisfy `end > start`; when the chosen optimal alignment has
no aligned pair (e.g. the page text is empty), it raises instead. -/
theorem claim1_theorem :
    ∀ (page : List Char) (e : Excerpt) (ops : List Op), e.Valid →
      IsOptimalAlignment page e.ppa_span_text ops → blocksOf ops ≠ [] →
      ∃ e', e.correct_page_excerpt page ops = .ok e' ∧
        e'.ppa_span_start < e'.ppa_span_end ∧
        e'.ppa_span_text = pySlice page e'.ppa_span_start.toNat e'.ppa_span_end.toNat := by
  intro page e ops hv hopt hblocks
  rcases hb : blocksOf ops with _ | ⟨b, bs⟩
  · exact absurd hb hblocks
  obtain ⟨hle, hlt⟩ := blocksAux_bounds ops 0 b bs hb
  unfold Excerpt.correct_page_excerpt
  rw [hb]
  refine ⟨_, Excerpt.make_eq_ok.mpr ⟨by exact_mod_cast hlt, hv.2.1, hv.2.2.1, rfl⟩, ?_, ?_⟩
  · show ((b.1 : Nat) : Int) < ((lastEnd b bs : Nat) : Int)
    exact_mod_cast hlt
  · show pySlice page b.1 (lastEnd b bs) =
      pySlice page ((b.1 : Nat) : Int).toNat ((lastEnd b bs : Nat) : Int).toNat
    rw [Int.toNat_natCast, Int.toNat_natCast]

theorem claim1_witness :
    ∃ e', c1ex.correct_page_excerpt ['a'] (List.replicate 1 .pair) = .ok e' ∧
      e'.ppa_span_start < e'.ppa_span_end ∧
      e'.ppa_span_text = pySlice ['a'] e'.ppa_span_start.toNat e'.ppa_span_end.toNat :=
  claim1_theorem ['a'] c1ex (List.replicate 1 .pair) (by decide)
    (self_replicate_optimal ['a']) (by decide)

end Corppa
